import Mathlib

/-!
Shallow embedding of `obsidian.syncthing.deconflicter.py`.

The program resolves Syncthing conflict artifacts: it gates on quiescence
(no Obsidian process, Syncthing idle, no recent file modification), scans the
working tree for paths matching `CONFLICT_REGEX`, and for each match looks up
the live original, a timestamped backup under `.stversions`, runs an external
`git merge-file --union`, and deletes the artifact on success.

Modelling decisions:
- paths are `String`s; regex matching is implemented character by character on
  `List Char`, mirroring Python `re` semantics (`re.match` anchors at the
  start only; `(.*?)` is non-greedy; `.` does not match a newline; `$` matches
  at the end or just before a trailing newline).  `\d` and `\w` are modelled
  by their ASCII classes.
- the filesystem is a `World`: an existence predicate for `os.path.isfile`,
  the candidate list an `os.walk` of `.stversions` produces (in walk order),
  and an oracle for the exit status of the external merge command.  File
  contents are not tracked: the only mutation the program performs that the
  claims observe is the deletion of the artifact.
- side effects of `process_conflict` are recorded as a trace of `FsOp`s.
- the pgrep subprocess outcome is either an exit code or a failure to launch;
  `subprocess.check_output` raises `CalledProcessError` on a nonzero exit
  (caught by the code) and `OSError` when the binary cannot be run (uncaught).
- modification times and the clock are modelled as integers; only their order
  matters to the program.
-/

namespace Deconflicter

/-- ASCII model of the regex class `\w`: letters, digits and underscore. -/
def isWordChar (c : Char) : Bool :=
  c.isAlphanum || c = '_'

/-- Consume an exact literal prefix, returning the remainder. -/
def stripLit : List Char → List Char → Option (List Char)
  | [], r => some r
  | _ :: _, [] => none
  | c :: cs, x :: xs => if x = c then stripLit cs xs else none

/-- Consume exactly `n` characters satisfying `p`, returning the remainder. -/
def stripClass (p : Char → Bool) : Nat → List Char → Option (List Char)
  | 0, r => some r
  | _ + 1, [] => none
  | n + 1, c :: cs => if p c then stripClass p n cs else none

/-- Consume the alternation `(?:\.|%2F)` of `CONFLICT_REGEX`. -/
def stripSep : List Char → Option (List Char)
  | '.' :: r => some r
  | '%' :: '2' :: 'F' :: r => some r
  | _ => none

/-- Consume the optional dot `\.?` (greedy; no backtracking is ever needed
because the following `(.*)$` fails only on interior newlines, which the
optional dot cannot repair). -/
def stripOptDot : List Char → List Char
  | '.' :: r => r
  | r => r

/-- Python semantics of `(.*)$` (no DOTALL, no MULTILINE): `.*` captures a
maximal newline-free run and `$` matches at the end of the string or just
before a newline that ends the string. -/
def dotStarDollar (r : List Char) : Option (List Char) :=
  if ('\n') ∉ r then some r
  else if r.getLast? = some ('\n') ∧ ('\n') ∉ r.dropLast then some r.dropLast
  else none

/-- The part of `CONFLICT_REGEX` after the non-greedy group 1:
`(?:\.|%2F)sync-conflict-\d{8}-\d{6}-\w{7}\.?(.*)$`.  Returns group 2 when it
matches the whole remainder. -/
def conflictTail (r : List Char) : Option (List Char) :=
  (stripSep r).bind fun r1 =>
  (stripLit (("sync-conflict-").toList) r1).bind fun r2 =>
  (stripClass Char.isDigit 8 r2).bind fun r3 =>
  (stripLit (['-']) r3).bind fun r4 =>
  (stripClass Char.isDigit 6 r4).bind fun r5 =>
  (stripLit (['-']) r5).bind fun r6 =>
  (stripClass isWordChar 7 r6).bind fun r7 =>
  dotStarDollar (stripOptDot r7)

/-- Backtracking loop of the non-greedy group 1 `(.*?)`: try the tail at the
current position first; on failure extend group 1 by one (non-newline)
character.  `acc` holds the reversed characters consumed so far. -/
def conflictScan : List Char → List Char → Option (List Char × List Char)
  | acc, [] => (conflictTail []).map fun ext => (acc.reverse, ext)
  | acc, c :: rest =>
    match conflictTail (c :: rest) with
    | some ext => some (acc.reverse, ext)
    | none => if c = '\n' then none else conflictScan (c :: acc) rest

/-- `CONFLICT_REGEX.match(s)` with its two capture groups:
`^(.*?)(?:\.|%2F)sync-conflict-\d{8}-\d{6}-\w{7}\.?(.*)$`. -/
def conflict_match (s : String) : Option (String × String) :=
  (conflictScan [] s.toList).map fun p => (String.mk p.1, String.mk p.2)

/-- `STVERSIONS_DIR` configuration constant. -/
def STVERSIONS_DIR : String := ".stversions"

/-- The anchored-at-start match of the pattern `find_backup_file` compiles:
`re.escape(STVERSIONS_DIR)/re.escape(base)~\d{8}-\d{6}\.re.escape(ext)`,
applied with `pattern.match(candidate)` — so nothing constrains what follows
the extension. -/
def backupMatchL (base ext cand : List Char) : Bool :=
  ((stripLit (STVERSIONS_DIR.toList ++ ('/' :: base) ++ (['~'])) cand).bind fun r1 =>
   (stripClass Char.isDigit 8 r1).bind fun r2 =>
   (stripLit (['-']) r2).bind fun r3 =>
   (stripClass Char.isDigit 6 r3).bind fun r4 =>
   stripLit ('.' :: ext) r4).isSome

/-- String-level wrapper of `backupMatchL`. -/
def backup_pattern_match (conflict_base ext cand : String) : Bool :=
  backupMatchL conflict_base.toList ext.toList cand.toList

/-- `find_backup_file(conflict_base, ext)`: walk `.stversions` (the walk in
the order `os.walk` yields, as the list `backupWalk` of relpath candidates)
and return the first candidate the pattern accepts, else `None`. -/
def find_backup_file (backupWalk : List String) (conflict_base ext : String) :
    Option String :=
  backupWalk.find? fun c => backup_pattern_match conflict_base ext c

/-- `find_conflict_files(base_dir)`: the relative paths the tree walk yields,
filtered by `CONFLICT_REGEX.match` (used only for its truthiness there). -/
def find_conflict_files (treeWalk : List String) : List String :=
  treeWalk.filter fun p => (conflict_match p).isSome

/-- `f"{base_name}.{ext}" if ext else base_name` in `process_conflict`. -/
def original_of (base_name ext : String) : String :=
  if ext = "" then base_name else base_name ++ "." ++ ext

/-- A filesystem/process side effect of `process_conflict`. -/
inductive FsOp where
  | isfileQuery (p : String)
  | walkBackups
  | runMerge (original backup conflict : String)
  | removeFile (p : String)
  deriving DecidableEq

/-- The environment a run sees: `os.path.isfile`, the `.stversions` walk, and
the exit-status oracle of `git merge-file --union original backup conflict`
(true = exit code 0). -/
structure World where
  isfile : String → Bool
  backupWalk : List String
  mergeOk : String → String → String → Bool

/-- Result of one `process_conflict` call: its return value, the world after
it (deletion of the artifact is the only tracked mutation), and the trace of
effects it performed. -/
structure PCResult where
  result : Bool
  world : World
  ops : List FsOp

/-- `process_conflict(conflict_path)`: re-match the conflict regex, require
the reconstructed original to exist, find a backup, merge, and delete the
artifact on merge success. -/
def process_conflict (w : World) (conflict_path : String) : PCResult :=
  match conflict_match conflict_path with
  | none => ⟨false, w, []⟩
  | some (base_name, ext) =>
    let original := original_of base_name ext
    if w.isfile original = false then
      ⟨false, w, [FsOp.isfileQuery original]⟩
    else
      match find_backup_file w.backupWalk base_name ext with
      | none => ⟨false, w, [FsOp.isfileQuery original, FsOp.walkBackups]⟩
      | some backup =>
        if w.mergeOk original backup conflict_path then
          ⟨true,
           { w with isfile := fun p => if p = conflict_path then false else w.isfile p },
           [FsOp.isfileQuery original, FsOp.walkBackups,
            FsOp.runMerge original backup conflict_path,
            FsOp.removeFile conflict_path]⟩
        else
          ⟨false, w,
           [FsOp.isfileQuery original, FsOp.walkBackups,
            FsOp.runMerge original backup conflict_path]⟩

/-- Outcome of the `pgrep -x Obsidian` subprocess: either the process ran and
exited with a code, or it could not be launched at all (`OSError`). -/
inductive PgrepOutcome where
  | exited (code : Nat)
  | notLaunched
  deriving DecidableEq

/-- `is_obsidian_running()`: `subprocess.check_output` returns normally on
exit code 0 (→ True) and raises `CalledProcessError` on a nonzero exit, which
the `except` clause turns into False; an `OSError` from a failed launch is not
caught and propagates (modelled as `Except.error`). -/
def is_obsidian_running : PgrepOutcome → Except Unit Bool
  | PgrepOutcome.exited 0 => Except.ok true
  | PgrepOutcome.exited (_ + 1) => Except.ok false
  | PgrepOutcome.notLaunched => Except.error ()

/-- `no_recent_file_changes(path, seconds)` over the walk `os.walk` produces:
each entry carries its `getmtime` result, or `none` when the file vanished
before the `getmtime` call (`FileNotFoundError`, skipped by `continue`). -/
def no_recent_file_changes (walk : List (String × Option Int)) (now seconds : Int) :
    Bool :=
  match walk with
  | [] => true
  | (_, none) :: rest => no_recent_file_changes rest now seconds
  | (_, some m) :: rest =>
    if m > now - seconds then false else no_recent_file_changes rest now seconds

/-- `MIN_IDLE_TIME` configuration constant (seconds). -/
def MIN_IDLE_TIME : Int := 600

/-- Environment of one `main()` run that is outside `World`: the pgrep
outcome, the boolean `is_syncthing_idle` reports (network glue, modelled at
its boundary), and the mtime walk plus clock `no_recent_file_changes` sees. -/
structure Gate where
  pgrep : PgrepOutcome
  syncthingIdle : Bool
  mtimeWalk : List (String × Option Int)
  now : Int

/-- Observable outcome of one `main()` run: the messages passed to `log_run`
(in order, without the timestamp prefix `log_run` adds), whether the conflict
scan was reached, and the per-conflict effect trace. -/
structure RunOut where
  logs : List String
  scanned : Bool
  ops : List FsOp

/-- The `for conflict in conflicts` loop of `main`: thread the world through
`process_conflict`, collecting the resolved paths in iteration order and the
concatenated effect traces. -/
def run_conflicts (w : World) : List String → List String × World × List FsOp
  | [] => ([], w, [])
  | c :: rest =>
    let out := process_conflict w c
    let next := run_conflicts out.world rest
    ((if out.result then c :: next.1 else next.1), next.2.1, out.ops ++ next.2.2)

/-- `main()`: quiescence gate (Obsidian check, Syncthing idle check, idle-time
check, in that order, each with its own skip log line), then scan, process
every conflict, and log the one summary line.  A launch failure of pgrep
escapes as an uncaught exception. -/
def main (g : Gate) (w : World) (treeWalk : List String) : Except Unit RunOut :=
  match is_obsidian_running g.pgrep with
  | Except.error e => Except.error e
  | Except.ok true => Except.ok ⟨[("Skipped: Obsidian is running")], false, []⟩
  | Except.ok false =>
    if g.syncthingIdle = false then
      Except.ok ⟨[("Skipped: Syncthing is active")], false, []⟩
    else if no_recent_file_changes g.mtimeWalk g.now MIN_IDLE_TIME = false then
      Except.ok ⟨[("Skipped: recent file changes detected")], false, []⟩
    else
      let conflicts := find_conflict_files treeWalk
      let res := run_conflicts w conflicts
      let summary :=
        if res.1 = [] then ("No conflicts found")
        else ("Resolved ") ++ toString res.1.length ++ (" conflict(s): ")
             ++ String.intercalate (", ") res.1
      Except.ok ⟨[summary], true, res.2.2⟩

/-- A world with no files, no backups and a failing merge, used to
instantiate theorems at concrete inputs. -/
def emptyWorld : World :=
  ⟨fun _ => false, [], fun _ _ _ => false⟩

/-- A world in which every queried path exists, the backup store holds one
snapshot of `a.md`, and the external merge succeeds. -/
def sampleWorld : World :=
  ⟨fun _ => true, [(".stversions/a~20240101-120000.md")], fun _ _ _ => true⟩

/- ===================== theorems ===================== -/

/-- Consuming a literal succeeds exactly on lists extending it. -/
theorem stripLit_eq_some (l : List Char) :
    ∀ r r' : List Char, stripLit l r = some r' ↔ r = l ++ r' := by
  induction l with
  | nil =>
    intro r r'
    simp [stripLit]
  | cons c cs ih =>
    intro r r'
    cases r with
    | nil => simp [stripLit]
    | cons x xs =>
      by_cases hx : x = c
      · subst hx
        simp [stripLit, ih]
      · simp [stripLit, hx]

/-- Consuming `n` characters of a class succeeds exactly on lists beginning
with `n` characters of that class. -/
theorem stripClass_eq_some (p : Char → Bool) :
    ∀ (n : Nat) (r r' : List Char), stripClass p n r = some r' ↔
      ∃ d, r = d ++ r' ∧ d.length = n ∧ ∀ c ∈ d, p c := by
  intro n
  induction n with
  | zero =>
    intro r r'
    simp only [stripClass, Option.some.injEq]
    constructor
    · rintro rfl
      exact ⟨[], rfl, rfl, by simp⟩
    · rintro ⟨d, hd, hlen, _⟩
      rw [List.length_eq_zero] at hlen
      subst hlen
      simpa using hd
  | succ n ih =>
    intro r r'
    cases r with
    | nil =>
      simp only [stripClass]
      constructor
      · intro h
        exact absurd h (by simp)
      · rintro ⟨d, hd, hlen, _⟩
        rcases List.append_eq_nil.mp hd.symm with ⟨hd1, _⟩
        subst hd1
        simp at hlen
    | cons x xs =>
      by_cases hp : p x
      · simp only [stripClass, hp, if_pos, ih]
        constructor
        · rintro ⟨d, rfl, hlen, hall⟩
          refine ⟨x :: d, rfl, by simp [hlen], ?_⟩
          intro c hc
          rcases List.mem_cons.mp hc with rfl | hc
          · exact hp
          · exact hall c hc
        · rintro ⟨d, hd, hlen, hall⟩
          cases d with
          | nil => simp at hlen
          | cons y ys =>
            rcases List.cons.injEq .. ▸ hd with ⟨rfl, hxs⟩
            exact ⟨ys, hxs, by simpa using hlen, fun c hc => hall c (List.mem_cons_of_mem _ hc)⟩
      · simp only [stripClass, hp, if_neg, Bool.false_eq_true, not_false_eq_true,
          reduceCtorEq, false_iff]
        rintro ⟨d, hd, hlen, hall⟩
        cases d with
        | nil => simp at hlen
        | cons y ys =>
          have hxy : x = y := by
            have := hd
            simp only [List.cons_append, List.cons.injEq] at this
            exact this.1
          exact hp (hxy ▸ hall y (List.mem_cons_self y ys))

/-- Claim C2 (counterexample): the pattern `find_backup_file` builds is only
anchored at the start (`re.match` with no `$`), so it accepts the candidate
`.stversions/a~20240101-120000.mdx` for extension `md` even though that path
does not end with the extension; and with the empty extension the literal dot
after the timestamp is still required, so `.stversions/a~20240101-120000` is
rejected, contradicting the claimed "no extension requirement at all". -/
theorem backup_pattern_match_counterexample :
    backup_pattern_match ("a") ("md") (".stversions/a~20240101-120000.mdx") = true ∧
    List.isSuffixOf ("md").toList (".stversions/a~20240101-120000.mdx").toList = false ∧
    backup_pattern_match ("a") ("") (".stversions/a~20240101-120000") = false := by
  decide

/-- Claim C2 (amended): `find_backup_file`'s pattern accepts exactly the
candidates that *begin* with
`.stversions/<base>~<8 digits>-<6 digits>.<ext>` — arbitrary text may follow,
because the pattern is applied with `re.match` and carries no end anchor; in
particular an empty extension still requires the literal dot after the
timestamp and constrains nothing beyond it. -/
theorem backup_pattern_match_iff (base ext cand : String) :
    backup_pattern_match base ext cand = true ↔
      ∃ d8 d6 rest : List Char,
        cand.toList = STVERSIONS_DIR.toList ++ ('/' :: base.toList) ++ ['~'] ++
          d8 ++ ['-'] ++ d6 ++ ['.'] ++ ext.toList ++ rest ∧
        d8.length = 8 ∧ (∀ c ∈ d8, c.isDigit) ∧
        d6.length = 6 ∧ (∀ c ∈ d6, c.isDigit) := by
  unfold backup_pattern_match backupMatchL
  rw [Option.isSome_iff_exists]
  constructor
  · rintro ⟨r, hr⟩
    simp only [Option.bind_eq_some, stripLit_eq_some, stripClass_eq_some] at hr
    obtain ⟨r1, h1, r2, ⟨d8, hd8, hl8, ha8⟩, r3, h3, r4, ⟨d6, hd6, hl6, ha6⟩, h5⟩ := hr
    refine ⟨d8, d6, r, ?_, hl8, ha8, hl6, ha6⟩
    subst hd8 h3 hd6 h5
    simpa [List.append_assoc, List.cons_append] using h1
  · rintro ⟨d8, d6, rest, hc, hl8, ha8, hl6, ha6⟩
    refine ⟨rest, ?_⟩
    simp only [Option.bind_eq_some, stripLit_eq_some, stripClass_eq_some]
    refine ⟨d8 ++ ('-' :: (d6 ++ ('.' :: (ext.toList ++ rest)))),
      by simpa [List.append_assoc] using hc,
      '-' :: (d6 ++ ('.' :: (ext.toList ++ rest))), ⟨d8, rfl, hl8, ha8⟩,
      d6 ++ ('.' :: (ext.toList ++ rest)), rfl,
      '.' :: (ext.toList ++ rest), ⟨d6, rfl, hl6, ha6⟩, rfl⟩

/-- Claim C2 witness: the amended characterization instantiated on a stored
backup of `a.md`. -/
theorem backup_pattern_match_iff_witness :
    ∃ d8 d6 rest : List Char,
      (".stversions/a~20240101-120000.md").toList =
        STVERSIONS_DIR.toList ++ ('/' :: ("a").toList) ++ ['~'] ++
          d8 ++ ['-'] ++ d6 ++ ['.'] ++ ("md").toList ++ rest ∧
      d8.length = 8 ∧ (∀ c ∈ d8, c.isDigit) ∧
      d6.length = 6 ∧ (∀ c ∈ d6, c.isDigit) :=
  (backup_pattern_match_iff ("a") ("md") (".stversions/a~20240101-120000.md")).mp
    (by decide)

/-- Claim C1: `process_conflict` deletes the artifact exactly when the name
matches `CONFLICT_REGEX`, the reconstructed original exists, a backup is
found, and the external merge exits 0; its return value is true exactly when
it deletes; and whenever it returns false the world is unchanged and the
artifact was not removed. -/
theorem process_conflict_delete_iff (w : World) (p : String) :
    (FsOp.removeFile p ∈ (process_conflict w p).ops ↔
      ∃ b e bk, conflict_match p = some (b, e) ∧
        w.isfile (original_of b e) = true ∧
        find_backup_file w.backupWalk b e = some bk ∧
        w.mergeOk (original_of b e) bk p = true) ∧
    ((process_conflict w p).result = true ↔
      FsOp.removeFile p ∈ (process_conflict w p).ops) ∧
    ((process_conflict w p).result = false →
      (process_conflict w p).world = w ∧
      FsOp.removeFile p ∉ (process_conflict w p).ops) := by
  rcases hm : conflict_match p with _ | ⟨b, e⟩
  · simp [process_conflict, hm]
  · rcases hf : w.isfile (original_of b e) with _ | _
    · simp [process_conflict, hm, hf]
    · rcases hb : find_backup_file w.backupWalk b e with _ | bk
      · simp [process_conflict, hm, hf, hb]
      · rcases hmg : w.mergeOk (original_of b e) bk p with _ | _
        · simp [process_conflict, hm, hf, hb, hmg]
        · simp [process_conflict, hm, hf, hb, hmg]
          exact ⟨b, e, ⟨rfl, rfl⟩, hf, bk, hb, hmg⟩

/-- Claim C1 witness: in a world holding the original, a matching backup and
a succeeding merge, the artifact is deleted. -/
theorem process_conflict_delete_iff_witness :
    FsOp.removeFile ("a.sync-conflict-20240102-130000-abcd123.md") ∈
      (process_conflict sampleWorld ("a.sync-conflict-20240102-130000-abcd123.md")).ops :=
  (process_conflict_delete_iff sampleWorld
      ("a.sync-conflict-20240102-130000-abcd123.md")).1.mpr
    ⟨("a"), ("md"), (".stversions/a~20240101-120000.md"), by decide, rfl, by decide, rfl⟩

/-- Claim C5: when the reconstructed original is not a file,
`process_conflict` returns false, mutates nothing, and performs only the
existence query — in particular the artifact is not removed. -/
theorem process_conflict_missing_original (w : World) (p b e : String)
    (hm : conflict_match p = some (b, e))
    (hf : w.isfile (original_of b e) = false) :
    process_conflict w p = ⟨false, w, [FsOp.isfileQuery (original_of b e)]⟩ ∧
    FsOp.removeFile p ∉ (process_conflict w p).ops := by
  constructor
  · simp [process_conflict, hm, hf]
  · simp [process_conflict, hm, hf]

/-- Claim C5 witness: a conflict artifact for `notes/todo.md` in a world with
no files. -/
theorem process_conflict_missing_original_witness :
    process_conflict emptyWorld ("notes/todo.sync-conflict-20240101-120000-abc1234.md")
      = ⟨false, emptyWorld, [FsOp.isfileQuery (original_of ("notes/todo") ("md"))]⟩ ∧
    FsOp.removeFile ("notes/todo.sync-conflict-20240101-120000-abc1234.md") ∉
      (process_conflict emptyWorld
        ("notes/todo.sync-conflict-20240101-120000-abc1234.md")).ops :=
  process_conflict_missing_original _ _ _ _ (by decide) rfl

/-- Claim C10: a path the conflict regex rejects makes `process_conflict`
return false immediately, with no filesystem operation performed at all. -/
theorem process_conflict_no_regex_match (w : World) (p : String)
    (hm : conflict_match p = none) :
    process_conflict w p = ⟨false, w, []⟩ := by
  simp [process_conflict, hm]

/-- Claim C10 witness: an ordinary note path. -/
theorem process_conflict_no_regex_match_witness :
    process_conflict emptyWorld ("notes/plain.md") = ⟨false, emptyWorld, []⟩ :=
  process_conflict_no_regex_match _ _ (by decide)

/-- Claim C3: `find_conflict_files` and `process_conflict` consult the same
compiled regex, embedded once as `conflict_match`: the scanner yields exactly
the walked paths that regex accepts, `process_conflict` reconstructs its
original from the same match's two groups, and on
`notes/todo.sync-conflict-20240101-120000-abc1234.md` the derived pair is
(`notes/todo`, `md`). -/
theorem conflict_matchers_agree :
    (∀ (treeWalk : List String) (p : String),
      p ∈ find_conflict_files treeWalk ↔ p ∈ treeWalk ∧ (conflict_match p).isSome) ∧
    (∀ (w : World) (p b e : String), conflict_match p = some (b, e) →
      FsOp.isfileQuery (original_of b e) ∈ (process_conflict w p).ops) ∧
    conflict_match ("notes/todo.sync-conflict-20240101-120000-abc1234.md")
      = some (("notes/todo"), ("md")) := by
  refine ⟨?_, ?_, by decide⟩
  · intro walk p
    simp [find_conflict_files, List.mem_filter]
  · intro w p b e hm
    rcases hf : w.isfile (original_of b e) with _ | _
    · simp [process_conflict, hm, hf]
    · rcases hb : find_backup_file w.backupWalk b e with _ | bk
      · simp [process_conflict, hm, hf, hb]
      · rcases hmg : w.mergeOk (original_of b e) bk p with _ | _
        · simp [process_conflict, hm, hf, hb, hmg]
        · simp [process_conflict, hm, hf, hb, hmg]

/-- Claim C3 witness: the matched pair drives `process_conflict`'s original
lookup on the spec's example path. -/
theorem conflict_matchers_agree_witness :
    FsOp.isfileQuery (original_of ("notes/todo") ("md")) ∈
      (process_conflict emptyWorld
        ("notes/todo.sync-conflict-20240101-120000-abc1234.md")).ops :=
  conflict_matchers_agree.2.1 emptyWorld
    ("notes/todo.sync-conflict-20240101-120000-abc1234.md") ("notes/todo") ("md")
    (by decide)

/-- Claim C6: `find_backup_file` returns `none` exactly when no candidate in
the walk matches, and a returned candidate is a match that is first in walk
order: every candidate before it in the walk fails the pattern. -/
theorem find_backup_file_first (backupWalk : List String) (b e : String) :
    (find_backup_file backupWalk b e = none ↔
      ∀ c ∈ backupWalk, backup_pattern_match b e c = false) ∧
    ∀ c, find_backup_file backupWalk b e = some c →
      backup_pattern_match b e c = true ∧
      ∃ pre post, backupWalk = pre ++ c :: post ∧
        ∀ x ∈ pre, backup_pattern_match b e x = false := by
  induction backupWalk with
  | nil =>
    constructor
    · simp [find_backup_file]
    · intro c h
      simp [find_backup_file] at h
  | cons x xs ih =>
    rcases hx : backup_pattern_match b e x with _ | _
    · have hstep : find_backup_file (x :: xs) b e = find_backup_file xs b e := by
        unfold find_backup_file
        rw [List.find?_cons_of_neg]
        simp [hx]
      constructor
      · rw [hstep, ih.1]
        constructor
        · intro h c hc
          rcases List.mem_cons.mp hc with rfl | hc
          · exact hx
          · exact h c hc
        · intro h c hc
          exact h c (List.mem_cons_of_mem _ hc)
      · intro c hc
        rw [hstep] at hc
        obtain ⟨hmatch, pre, post, hsplit, hpre⟩ := ih.2 c hc
        refine ⟨hmatch, x :: pre, post, by simp [hsplit], ?_⟩
        intro y hy
        rcases List.mem_cons.mp hy with rfl | hy
        · exact hx
        · exact hpre y hy
    · have hstep : find_backup_file (x :: xs) b e = some x := by
        unfold find_backup_file
        exact List.find?_cons_of_pos _ hx
      constructor
      · rw [hstep]
        apply iff_of_false
        · simp
        · intro h
          exact absurd (h x (List.mem_cons_self x xs)) (by simp [hx])
      · intro c hc
        rw [hstep] at hc
        obtain rfl : x = c := Option.some.inj hc
        exact ⟨hx, [], xs, rfl, by simp⟩

/-- Claim C6 witness: with two candidates in walk order, the first matching
one (here the second entry) is returned together with its decomposition. -/
theorem find_backup_file_first_witness :
    backup_pattern_match ("a") ("md") (".stversions/a~20240101-120000.md") = true ∧
    ∃ pre post,
      [(".stversions/other.txt"), (".stversions/a~20240101-120000.md")] =
        pre ++ (".stversions/a~20240101-120000.md") :: post ∧
      ∀ x ∈ pre, backup_pattern_match ("a") ("md") x = false :=
  (find_backup_file_first
      [(".stversions/other.txt"), (".stversions/a~20240101-120000.md")]
      ("a") ("md")).2
    (".stversions/a~20240101-120000.md") (by decide)

/-- Claim C8: `no_recent_file_changes` returns false exactly when some walked
file whose modification time was readable has an mtime inside the trailing
window, and an entry that vanished before its `getmtime` call is skipped
without affecting the result. -/
theorem no_recent_file_changes_false_iff (walk : List (String × Option Int))
    (now seconds : Int) :
    (no_recent_file_changes walk now seconds = false ↔
      ∃ q m, (q, some m) ∈ walk ∧ now - seconds < m) ∧
    ∀ (q : String) (rest : List (String × Option Int)),
      no_recent_file_changes ((q, none) :: rest) now seconds =
        no_recent_file_changes rest now seconds := by
  constructor
  · induction walk with
    | nil => simp [no_recent_file_changes]
    | cons hd tl ih =>
      rcases hd with ⟨q, _ | m⟩
      · rw [show no_recent_file_changes ((q, none) :: tl) now seconds =
              no_recent_file_changes tl now seconds from rfl, ih]
        constructor
        · rintro ⟨q1, m1, hm1, hlt⟩
          exact ⟨q1, m1, List.mem_cons_of_mem _ hm1, hlt⟩
        · rintro ⟨q1, m1, hm1, hlt⟩
          rcases List.mem_cons.mp hm1 with heq | hm2
          · injection heq with h1 h2
            exact Option.noConfusion h2
          · exact ⟨q1, m1, hm2, hlt⟩
      · by_cases hlt : m > now - seconds
        · have h1 : no_recent_file_changes ((q, some m) :: tl) now seconds = false := by
            simp [no_recent_file_changes, hlt]
          rw [h1]
          exact iff_of_true rfl ⟨q, m, List.mem_cons_self _ _, hlt⟩
        · have h1 : no_recent_file_changes ((q, some m) :: tl) now seconds =
              no_recent_file_changes tl now seconds := by
            simp [no_recent_file_changes, hlt]
          rw [h1, ih]
          constructor
          · rintro ⟨q1, m1, hm1, h2⟩
            exact ⟨q1, m1, List.mem_cons_of_mem _ hm1, h2⟩
          · rintro ⟨q1, m1, hm1, h2⟩
            rcases List.mem_cons.mp hm1 with heq | hm2
            · injection heq with h3 h4
              injection h4 with h5
              subst h5
              exact absurd h2 hlt
            · exact ⟨q1, m1, hm2, h2⟩
  · intro q rest
    rfl

/-- Claim C8 witness: one readable recent file forces a false result (here
the window reaches back to -100 and the mtime is 100). -/
theorem no_recent_file_changes_false_iff_witness :
    no_recent_file_changes [(("f"), some 100)] 500 600 = false :=
  (no_recent_file_changes_false_iff [(("f"), some 100)] 500 600).1.mpr
    ⟨("f"), 100, List.mem_cons_self _ _, by decide⟩

/-- Claim C4 counterexample: when the pgrep query cannot be performed at all
(the subprocess fails to launch, an `OSError`), `is_obsidian_running` does
not return false — the exception escapes, because the code catches only
`CalledProcessError`.  This refutes the claim that the function returns
false whenever the query itself fails. -/
theorem is_obsidian_running_not_launched :
    is_obsidian_running PgrepOutcome.notLaunched ≠ Except.ok false ∧
    is_obsidian_running PgrepOutcome.notLaunched = Except.error () := by
  constructor
  · intro h
    exact Except.noConfusion h
  · rfl

/-- Claim C4 (amended): when the query process runs to completion, a nonzero
exit — pgrep's "no process matched" as well as its error exits — is not
distinguished from "not found": the function returns false; it returns true
exactly on exit code 0; and when the query cannot be launched the exception
propagates instead of producing a value. -/
theorem is_obsidian_running_spec :
    (∀ code : Nat, is_obsidian_running (PgrepOutcome.exited code)
      = Except.ok (decide (code = 0))) ∧
    is_obsidian_running PgrepOutcome.notLaunched = Except.error () := by
  constructor
  · intro code
    cases code with
    | zero => rfl
    | succ n => rfl
  · rfl

/-- Claim C4 witness: pgrep's fatal-error exit code 3 yields false, exactly
like the not-found exit code 1. -/
theorem is_obsidian_running_spec_witness :
    is_obsidian_running (PgrepOutcome.exited 3) = Except.ok (decide (3 = 0)) :=
  is_obsidian_running_spec.1 3

/-- The resolved list collected by the orchestrator loop is a sublist of the
scanned conflicts, in scan order. -/
theorem run_conflicts_sublist (cs : List String) : ∀ w : World,
    (run_conflicts w cs).1.Sublist cs := by
  induction cs with
  | nil =>
    intro w
    simp [run_conflicts]
  | cons c rest ih =>
    intro w
    simp only [run_conflicts]
    rcases h : (process_conflict w c).result with _ | _
    · simp only [h, if_neg, Bool.false_eq_true, not_false_eq_true]
      exact List.Sublist.cons c (ih _)
    · simp only [h, if_pos]
      exact List.Sublist.cons₂ c (ih _)

/-- Claim C7: a run that passes the whole quiescence gate logs exactly one
line: the `Resolved N conflict(s): <comma-joined paths>` summary built from
the artifacts whose `process_conflict` returned true, in scan order, or
`No conflicts found` when that list is empty — also when conflicts were
found but none could be resolved. -/
theorem main_one_summary_line (g : Gate) (w : World) (treeWalk : List String)
    (hob : is_obsidian_running g.pgrep = Except.ok false)
    (hidle : g.syncthingIdle = true)
    (hquiet : no_recent_file_changes g.mtimeWalk g.now MIN_IDLE_TIME = true) :
    main g w treeWalk = Except.ok
      ⟨[(if (run_conflicts w (find_conflict_files treeWalk)).1 = []
          then ("No conflicts found")
          else ("Resolved ")
            ++ toString (run_conflicts w (find_conflict_files treeWalk)).1.length
            ++ (" conflict(s): ")
            ++ String.intercalate (", ") (run_conflicts w (find_conflict_files treeWalk)).1)],
        true, (run_conflicts w (find_conflict_files treeWalk)).2.2⟩ ∧
    (run_conflicts w (find_conflict_files treeWalk)).1.Sublist
      (find_conflict_files treeWalk) := by
  constructor
  · simp [main, hob, hidle, hquiet]
  · exact run_conflicts_sublist _ _

/-- Claim C7 witness: the gate passes, one conflict artifact is found but its
original is missing, so the single logged line is `No conflicts found`. -/
theorem main_one_summary_line_witness :
    main ⟨PgrepOutcome.exited 1, true, [], 0⟩ emptyWorld
        [("b.sync-conflict-20240102-130000-abcd123.md")] = Except.ok
      ⟨[(if (run_conflicts emptyWorld
            (find_conflict_files [("b.sync-conflict-20240102-130000-abcd123.md")])).1 = []
          then ("No conflicts found")
          else ("Resolved ")
            ++ toString (run_conflicts emptyWorld
                (find_conflict_files [("b.sync-conflict-20240102-130000-abcd123.md")])).1.length
            ++ (" conflict(s): ")
            ++ String.intercalate (", ") (run_conflicts emptyWorld
                (find_conflict_files [("b.sync-conflict-20240102-130000-abcd123.md")])).1)],
        true, (run_conflicts emptyWorld
          (find_conflict_files [("b.sync-conflict-20240102-130000-abcd123.md")])).2.2⟩ ∧
    (run_conflicts emptyWorld
        (find_conflict_files [("b.sync-conflict-20240102-130000-abcd123.md")])).1.Sublist
      (find_conflict_files [("b.sync-conflict-20240102-130000-abcd123.md")]) :=
  main_one_summary_line _ _ _ rfl rfl rfl

/-- Claim C9: whenever the editor process is detected (exit code 0 from the
query), `main` logs the skip line and stops — no scan, no per-conflict
operation, whatever the Syncthing state, the mtimes and the tree hold. -/
theorem main_obsidian_skip (g : Gate) (w : World) (treeWalk : List String)
    (hob : is_obsidian_running g.pgrep = Except.ok true) :
    main g w treeWalk =
      Except.ok ⟨[("Skipped: Obsidian is running")], false, []⟩ := by
  simp [main, hob]

/-- Claim C9 witness: Obsidian detected while Syncthing is busy, a fresh
mtime exists and a mergeable conflict is present — still only the skip. -/
theorem main_obsidian_skip_witness :
    main ⟨PgrepOutcome.exited 0, false, [(("f"), some 0)], 0⟩ sampleWorld
        [("a.sync-conflict-20240102-130000-abcd123.md")] =
      Except.ok ⟨[("Skipped: Obsidian is running")], false, []⟩ :=
  main_obsidian_skip _ _ _ rfl

end Deconflicter
